import Mathlib

/-!
Verification of the `tracing-tracy` layer (`tracing-tracy/src/lib.rs`) and the
stack-depth clamp of `tracy-client` (`tracy-client/src/lib.rs`).

The profiler backend (`tracy_client`) is an external collaborator: its
primitives (`Span::new`, dropping a `Span`, `message`, `color_message`,
`finish_continuous_frame!`) are modelled as events appended to a trace.
The per-thread shadow stack (`TRACY_SPAN_STACK`, a `VecDeque` used with
`push_back`/`pop_back`) and the layer callbacks `on_enter`, `on_exit`,
`on_event` are translated directly from the source, with the thread-local
state made explicit as a `LayerState` value threaded through the callbacks.
-/

namespace Tracy

/-! ## Stack-depth clamp (`tracy-client/src/lib.rs`, `adjust_stack_depth`) -/

/-- Modulus of the `u16` arithmetic used by `adjust_stack_depth`. -/
def U16_MOD : Nat := 65536

/-- `adjust_stack_depth` on Windows:
`62 ^ ((depth ^ 62) & 0u16.wrapping_sub((depth < 62) as _))`.
`depth` is a `u16`, represented as a `Nat` below `U16_MOD`; the
`wrapping_sub` is `(0 - b) mod 2^16`. -/
def adjust_stack_depth_windows (depth : Nat) : Nat :=
  62 ^^^ ((depth ^^^ 62) &&& ((U16_MOD - (if depth < 62 then 1 else 0)) % U16_MOD))

/-- `adjust_stack_depth` on non-Windows platforms: the identity. -/
def adjust_stack_depth_nonwindows (depth : Nat) : Nat := depth

/-! ## UTF-8 byte-level helpers used by `on_event`
(`String::len`, `String::is_char_boundary`, slicing `&dest[..max_len]`). -/

/-- Byte length of a list of characters under UTF-8 encoding
(Rust `str::len` counts bytes). -/
def byteLenL (l : List Char) : Nat := (l.map Char.utf8Size).sum

/-- Byte length of a string under UTF-8 encoding. -/
def byteLen (s : String) : Nat := byteLenL s.data

/-- Rust `str::is_char_boundary i`: `i = 0`, or `i` is the total byte
length of some character-level front part of the string. Index past the
end is not a boundary. -/
def isCharBoundary : List Char → Nat → Bool
  | _, 0 => true
  | [], _ + 1 => false
  | c :: rest, i + 1 =>
    if i + 1 < c.utf8Size then false
    else isCharBoundary rest (i + 1 - c.utf8Size)

/-- The loop `while !dest.is_char_boundary(max_len) { max_len -= 1 }`:
the largest index at or below `n` that is a character boundary of `l`
(index `0` is always a boundary, so the loop terminates). -/
def findBoundary (l : List Char) : Nat → Nat
  | 0 => 0
  | i + 1 => if isCharBoundary l (i + 1) then i + 1 else findBoundary l i

/-- The byte slice `&s[..n]` taken at character granularity: the longest
character-level front part whose byte length fits in `n`. At a character
boundary `n` this is exactly the `n`-byte front part. -/
def takeBytes : List Char → Nat → List Char
  | _, 0 => []
  | [], _ + 1 => []
  | c :: rest, i + 1 =>
    if c.utf8Size ≤ i + 1 then c :: takeBytes rest (i + 1 - c.utf8Size) else []

/-! ## The event-field visitor (`TracyEventFieldVisitor`) -/

/-- A field value as presented to the visitor: the layer overrides
`record_bool`, and every other value kind reaches `record_debug` carrying
its `Debug` rendering, which we take as given text. -/
inductive FieldValue where
  | bool : Bool → FieldValue
  | debug : String → FieldValue
deriving DecidableEq

/-- The visitor state: rendered text, the frame-mark flag, and whether no
field has been rendered yet. -/
structure Visitor where
  dest : String
  frame_mark : Bool
  first : Bool
deriving DecidableEq

/-- `TracyEventFieldVisitor::record_debug`: append `name = value`,
preceded by a comma-space separator when not the first rendered field. -/
def record_debug (vis : Visitor) (name : String) (value : String) : Visitor :=
  if vis.first then
    { vis with dest := vis.dest ++ (name ++ " = " ++ value), first := false }
  else
    { vis with dest := vis.dest ++ (", " ++ name ++ " = " ++ value) }

/-- `TracyEventFieldVisitor::record_bool`: a `true` value on the reserved
field name sets the frame-mark flag; anything else is rendered as text
(the `Debug` rendering of a Rust `bool`). -/
def record_bool (vis : Visitor) (name : String) (value : Bool) : Visitor :=
  match value, name with
  | true, "tracy.frame_mark" => { vis with frame_mark := true }
  | _, _ => record_debug vis name (if value then "true" else "false")

/-- Dispatch one field to the visitor. -/
def recordField (vis : Visitor) (f : String × FieldValue) : Visitor :=
  match f.2 with
  | FieldValue.bool b => record_bool vis f.1 b
  | FieldValue.debug s => record_debug vis f.1 s

/-- `event.record(&mut visitor)`: fold the fields, in iteration order,
over the freshly initialised visitor. -/
def visit (fields : List (String × FieldValue)) : Visitor :=
  fields.foldl recordField { dest := "", frame_mark := false, first := true }

/-! ## Profiler-backend events and the per-thread layer state -/

/-- One frame-recording handle (`tracy_client::Span`): `frameId` is the
creation serial number distinguishing handles, the rest are the arguments
of `Span::new` (the category argument is always the empty string). -/
structure FrameHandle where
  frameId : Nat
  name : String
  file : String
  line : Nat
  depth : Nat
deriving DecidableEq

/-- An observable call into the profiler backend. -/
inductive ProfEvent where
  | frameOpen : FrameHandle → ProfEvent
  | frameClose : FrameHandle → ProfEvent
  | plainMessage : String → Nat → ProfEvent
  | colorMessage : String → Nat → Nat → ProfEvent
  | frameMark : ProfEvent
deriving DecidableEq

/-- The externally-resolved data of a span: metadata name, optional
pre-formatted fields, optional source file and line. -/
structure SpanData where
  name : String
  fields : Option String
  file : Option String
  line : Option Nat
deriving DecidableEq

/-- The state of one thread: the shadow stack `TRACY_SPAN_STACK` (front of
the list is the front of the `VecDeque`; `push_back` appends, `pop_back`
removes the last entry), the next fresh handle serial, and the trace of
backend calls made so far. -/
structure LayerState where
  stack : List (FrameHandle × Nat)
  nextFrameId : Nat
  events : List ProfEvent
deriving DecidableEq

/-- A fresh thread state: empty stack, no events. -/
def initState : LayerState := { stack := [], nextFrameId := 0, events := [] }

/-- The display name composed by `on_enter`:
`format!("\x7b\x7d: \x7b\x7d", metadata.name(), fields)` when formatted
fields are available, else the metadata name. -/
def displayName (d : SpanData) : String :=
  match d.fields with
  | some f => d.name ++ ": " ++ f
  | none => d.name

/-- `VecDeque::pop_back`: the last entry and the remainder, if any. -/
def popBack (l : List (FrameHandle × Nat)) :
    Option ((FrameHandle × Nat) × List (FrameHandle × Nat)) :=
  match l.getLast? with
  | none => none
  | some x => some (x, l.dropLast)

/-- Diagnostic text of the out-of-order exit path of `on_exit`. -/
def oooText : String :=
  "Tracing spans exited out of order! Trace may not be accurate for this span stack."

/-- Diagnostic text of the empty-stack exit path of `on_exit`. -/
def emptyText : String :=
  "Exiting a tracing span, but got nothing on the tracy span stack!"

/-- Diagnostic text of the truncation path of `on_event`. -/
def truncText : String :=
  "Message for the previous event was too long, truncated"

/-- The handle created by `Span::new(&name, "", file, line, self.stack_depth)`
inside `on_enter`, for the span data `d`: the name is the composed display
name, a missing file degrades to the placeholder and a missing line to `0`. -/
def mkHandle (fid : Nat) (d : SpanData) (stackDepth : Nat) : FrameHandle :=
  { frameId := fid
    name := displayName d
    file := d.file.getD "<error: not available>"
    line := d.line.getD 0
    depth := stackDepth }

/-- `TracyLayer::on_enter`: if the context resolves the id, begin a
frame-recording with the composed name, missing file and line degraded to
a placeholder and `0`, and push `(handle, id)` on the shadow stack;
otherwise do nothing. -/
def on_enter (ctx : Nat → Option SpanData) (stackDepth : Nat) (id : Nat)
    (st : LayerState) : LayerState :=
  match ctx id with
  | none => st
  | some d =>
    { stack := st.stack ++ [(mkHandle st.nextFrameId d stackDepth, id)]
      nextFrameId := st.nextFrameId + 1
      events := st.events ++ [ProfEvent.frameOpen (mkHandle st.nextFrameId d stackDepth)] }

/-- `TracyLayer::on_exit`: pop the back of the shadow stack; on an id
mismatch emit the out-of-order diagnostic and still close the popped
frame; on an empty stack emit the nothing-on-stack diagnostic only. -/
def on_exit (stackDepth : Nat) (id : Nat) (st : LayerState) : LayerState :=
  match popBack st.stack with
  | some ((h, span_id), rest) =>
    let diag := if id ≠ span_id then
        [ProfEvent.colorMessage oooText 0xFF000000 stackDepth] else []
    { st with stack := rest, events := st.events ++ diag ++ [ProfEvent.frameClose h] }
  | none =>
    { st with events :=
        st.events ++ [ProfEvent.colorMessage emptyText 0xFF000000 stackDepth] }

/-- `u16::max_value() as usize - 1`, the wire maximum payload length. -/
def MAX_LEN : Nat := 65535 - 1

/-- `TracyLayer::on_event`: run the visitor over the fields; if anything
was rendered, send it as a message, truncating at a character boundary
with a diagnostic when the byte length reaches `MAX_LEN`; finally mark a
continuous-frame end if the frame-mark flag was set. -/
def on_event (stackDepth : Nat) (fields : List (String × FieldValue))
    (st : LayerState) : LayerState :=
  let vis := visit fields
  let msgEvents :=
    if vis.first = false then
      if byteLen vis.dest ≥ MAX_LEN then
        let max_len := findBoundary vis.dest.data MAX_LEN
        [ProfEvent.plainMessage (String.mk (takeBytes vis.dest.data max_len)) stackDepth,
         ProfEvent.colorMessage truncText 0xFF000000 stackDepth]
      else
        [ProfEvent.plainMessage vis.dest stackDepth]
    else []
  let fmEvents := if vis.frame_mark then [ProfEvent.frameMark] else []
  { st with events := st.events ++ msgEvents ++ fmEvents }

/-! ## Trace observations used to state the claims -/

/-- Is the event a colored diagnostic with the given text? -/
def isColorDiag (txt : String) (e : ProfEvent) : Bool :=
  match e with
  | ProfEvent.colorMessage t _ _ => t == txt
  | _ => false

/-- Number of colored diagnostics with the given text in a trace. -/
def countColorDiag (txt : String) (evs : List ProfEvent) : Nat :=
  evs.countP (isColorDiag txt)

/-- Number of colored diagnostics of any text in a trace. -/
def countDiag (evs : List ProfEvent) : Nat :=
  evs.countP (fun e => match e with
    | ProfEvent.colorMessage _ _ _ => true
    | _ => false)

/-- The frame handles opened in a trace, in order. -/
def openedFrames (evs : List ProfEvent) : List FrameHandle :=
  evs.filterMap (fun e => match e with
    | ProfEvent.frameOpen h => some h
    | _ => none)

/-- The frame handles closed in a trace, in order. -/
def closedFrames (evs : List ProfEvent) : List FrameHandle :=
  evs.filterMap (fun e => match e with
    | ProfEvent.frameClose h => some h
    | _ => none)

/-- The texts of the plain messages of a trace, in order. -/
def plainMsgs (evs : List ProfEvent) : List String :=
  evs.filterMap (fun e => match e with
    | ProfEvent.plainMessage t _ => some t
    | _ => none)

/-- Number of continuous-frame-end notifications in a trace. -/
def countFrameMark (evs : List ProfEvent) : Nat :=
  evs.countP (fun e => match e with
    | ProfEvent.frameMark => true
    | _ => false)

/-! ## Spec-side rendering, for the refinement claim about `on_event`

The following definitions follow the specification's words - render each
field as `name = debug-formatted-value`, skip a true boolean on the
reserved name, and join with a comma-space separator before every rendered
field after the first - to be compared with the source-derived `visit`. -/

/-- The text a single field contributes, per the spec: `none` for the
reserved frame-marker field with value true, else `name = value`. -/
def specRenderedField (f : String × FieldValue) : Option String :=
  match f.2 with
  | FieldValue.bool b =>
    if b = true ∧ f.1 = "tracy.frame_mark" then none
    else some (f.1 ++ " = " ++ (if b then "true" else "false"))
  | FieldValue.debug s => some (f.1 ++ " = " ++ s)

/-- Joins every rendered field after the first behind a comma-space. -/
def specJoinTail (rs : List String) : String :=
  match rs with
  | [] => ""
  | s :: rest => ", " ++ s ++ specJoinTail rest

/-- The spec's rendered event text: the rendered fields in iteration
order, comma-space-joined before every rendered field after the first. -/
def specRenderJoin (fields : List (String × FieldValue)) : String :=
  match fields.filterMap specRenderedField with
  | [] => ""
  | s :: rest => s ++ specJoinTail rest

/-! ## Concrete scenario data -/

/-- An event with one field whose debug rendering is 65534 bytes long, so
the rendered text `x = ...` is 65538 bytes - at or above `MAX_LEN`. -/
def c4fields : List (String × FieldValue) :=
  [("x", FieldValue.debug (String.mk (List.replicate 65534 'a')))]

/-- An event with one field whose debug rendering is 65600 bytes long. -/
def c6fields : List (String × FieldValue) :=
  [("x", FieldValue.debug (String.mk (List.replicate 65600 'b')))]

/-- The two-field event of the rendering claim: x = 1, y = "s". -/
def c6exFields : List (String × FieldValue) :=
  [("x", FieldValue.debug "1"), ("y", FieldValue.debug "\"s\"")]

/-- Concrete context for the out-of-order scenario: id 1 is span A, id 2
is span B. -/
def c1ctx : Nat → Option SpanData := fun n =>
  if n = 1 then some ⟨"A", none, none, none⟩
  else if n = 2 then some ⟨"B", none, none, none⟩ else none

/-- The run `enter A (id 1), enter B (id 2), exit A (id 1)` at depth 64. -/
def c1run : LayerState :=
  on_exit 64 1 (on_enter c1ctx 64 2 (on_enter c1ctx 64 1 initState))

end Tracy

namespace Tracy

/-! ## Stack-depth clamp lemmas -/

theorem adjust_windows_eq_min (d : Nat) (h : d < 65536) :
    adjust_stack_depth_windows d = min d 62 := by
  unfold adjust_stack_depth_windows U16_MOD
  by_cases h62 : d < 62
  · simp only [if_pos h62]
    have hm : (65536 - 1) % 65536 = 2 ^ 16 - 1 := by norm_num
    rw [hm, Nat.and_pow_two_sub_one_eq_mod]
    have hx : d ^^^ 62 < 2 ^ 16 := Nat.xor_lt_two_pow (by omega) (by norm_num)
    rw [Nat.mod_eq_of_lt hx]
    rw [Nat.xor_comm d 62, ← Nat.xor_assoc, Nat.xor_self, Nat.zero_xor]
    omega
  · simp only [if_neg h62]
    norm_num [Nat.and_zero, Nat.xor_zero]
    omega

/-- C7: for every 16-bit requested depth, the Windows clamp returns the
depth itself unless it exceeds the documented maximum 62, in which case it
returns 62 - equivalently, the bit-trick expression equals `min d 62` -
and the non-Windows clamp is the identity. -/
theorem C7_clamp_characterisation (d : Nat) (h : d < 65536) :
    adjust_stack_depth_windows d = min d 62 ∧
    (d ≤ 62 → adjust_stack_depth_windows d = d) ∧
    (62 < d → adjust_stack_depth_windows d = 62) ∧
    adjust_stack_depth_nonwindows d = d := by
  have hw := adjust_windows_eq_min d h
  refine ⟨hw, ?_, ?_, rfl⟩
  · intro hle
    rw [hw]; omega
  · intro hlt
    rw [hw]; omega

/-- C7 witness at the concrete depths 100 and 7. -/
theorem C7_clamp_characterisation_witness :
    adjust_stack_depth_windows 100 = 62 ∧ adjust_stack_depth_windows 7 = 7 ∧
    adjust_stack_depth_nonwindows 100 = 100 := by
  have h1 := C7_clamp_characterisation 100 (by decide)
  have h2 := C7_clamp_characterisation 7 (by decide)
  exact ⟨by rw [h1.1]; decide, by rw [h2.1]; decide, h1.2.2.2⟩

/-- C8: the clamp is idempotent and non-increasing on 16-bit depths, on
both platform variants. -/
theorem C8_clamp_idempotent (d : Nat) (h : d < 65536) :
    adjust_stack_depth_windows (adjust_stack_depth_windows d) =
      adjust_stack_depth_windows d ∧
    adjust_stack_depth_windows d ≤ d ∧
    adjust_stack_depth_nonwindows (adjust_stack_depth_nonwindows d) =
      adjust_stack_depth_nonwindows d ∧
    adjust_stack_depth_nonwindows d ≤ d := by
  have hw := adjust_windows_eq_min d h
  have hlt : min d 62 < 65536 := by omega
  have hw2 := adjust_windows_eq_min (min d 62) hlt
  refine ⟨?_, ?_, rfl, le_refl d⟩
  · rw [hw, hw2]; omega
  · rw [hw]; omega

/-- C8 witness at the concrete depth 100. -/
theorem C8_clamp_idempotent_witness :
    adjust_stack_depth_windows (adjust_stack_depth_windows 100) =
      adjust_stack_depth_windows 100 ∧
    adjust_stack_depth_windows 100 ≤ 100 :=
  ⟨(C8_clamp_idempotent 100 (by decide)).1, (C8_clamp_idempotent 100 (by decide)).2.1⟩

/-! ## Span lifecycle claims -/

/-- C3: exiting a span when the shadow stack of the thread is empty emits
exactly one nothing-on-stack colored diagnostic, mutates nothing else (the
stack stays empty), and closes no frame. -/
theorem C3_exit_empty_stack (stackDepth id : Nat) (st : LayerState)
    (h : st.stack = []) :
    on_exit stackDepth id st =
      { st with events :=
          st.events ++ [ProfEvent.colorMessage emptyText 0xFF000000 stackDepth] } ∧
    (on_exit stackDepth id st).stack = [] ∧
    countColorDiag emptyText (on_exit stackDepth id st).events =
      countColorDiag emptyText st.events + 1 ∧
    closedFrames (on_exit stackDepth id st).events = closedFrames st.events := by
  have hpop : popBack st.stack = none := by rw [h]; rfl
  have hcall : on_exit stackDepth id st =
      { st with events :=
          st.events ++ [ProfEvent.colorMessage emptyText 0xFF000000 stackDepth] } := by
    unfold on_exit
    rw [hpop]
  refine ⟨hcall, ?_, ?_, ?_⟩
  · rw [hcall]; exact h
  · rw [hcall]
    unfold countColorDiag
    rw [List.countP_append]
    simp [isColorDiag]
  · rw [hcall]
    unfold closedFrames
    rw [List.filterMap_append]
    simp

/-- C3 witness: exiting span id 5 on a fresh thread state. -/
theorem C3_exit_empty_stack_witness :
    on_exit 64 5 initState =
      { initState with events := [ProfEvent.colorMessage emptyText 0xFF000000 64] } ∧
    (on_exit 64 5 initState).stack = [] :=
  ⟨(C3_exit_empty_stack 64 5 initState rfl).1, (C3_exit_empty_stack 64 5 initState rfl).2.1⟩

/-- C9: entering a span whose id the registry cannot resolve is a complete
no-op: the state (stack, handle counter, emitted events) is unchanged. -/
theorem C9_enter_unresolvable (ctx : Nat → Option SpanData)
    (stackDepth id : Nat) (st : LayerState) (h : ctx id = none) :
    on_enter ctx stackDepth id st = st := by
  unfold on_enter
  rw [h]

/-- C9 witness: a context resolving nothing leaves the fresh state as is. -/
theorem C9_enter_unresolvable_witness :
    on_enter (fun _ => none) 64 1 initState = initState :=
  C9_enter_unresolvable (fun _ => none) 64 1 initState rfl

/-! ## Step lemmas for the enter/exit scenarios -/

lemma on_enter_some (ctx : Nat → Option SpanData) (stackDepth id : Nat)
    (st : LayerState) (d : SpanData) (h : ctx id = some d) :
    on_enter ctx stackDepth id st =
      { stack := st.stack ++ [(mkHandle st.nextFrameId d stackDepth, id)]
        nextFrameId := st.nextFrameId + 1
        events := st.events ++ [ProfEvent.frameOpen (mkHandle st.nextFrameId d stackDepth)] } := by
  unfold on_enter
  rw [h]

lemma popBack_concat (l : List (FrameHandle × Nat)) (x : FrameHandle × Nat) :
    popBack (l ++ [x]) = some (x, l) := by
  unfold popBack
  rw [List.getLast?_concat, List.dropLast_concat]

lemma on_exit_push (stackDepth id : Nat) (st : LayerState)
    (l : List (FrameHandle × Nat)) (h : FrameHandle) (sid : Nat)
    (hst : st.stack = l ++ [(h, sid)]) :
    on_exit stackDepth id st =
      { st with
          stack := l,
          events := st.events ++
            (if id ≠ sid then [ProfEvent.colorMessage oooText 0xFF000000 stackDepth] else []) ++
            [ProfEvent.frameClose h] } := by
  unfold on_exit
  rw [hst, popBack_concat]

/-! ## C2: well-nested enter/exit -/

/-- C2: for any well-nested `enter A, enter B, exit B, exit A` on one
thread starting from a fresh state, no diagnostic is emitted, exactly the
two frames are opened and closed, the frame opened for B closes before the
frame opened for A, and the shadow stack ends empty. -/
theorem C2_well_nested (ctx : Nat → Option SpanData) (depth idA idB : Nat)
    (dA dB : SpanData) (hA : ctx idA = some dA) (hB : ctx idB = some dB) :
    (on_exit depth idA (on_exit depth idB
        (on_enter ctx depth idB (on_enter ctx depth idA initState)))).events =
      [ProfEvent.frameOpen (mkHandle 0 dA depth),
       ProfEvent.frameOpen (mkHandle 1 dB depth),
       ProfEvent.frameClose (mkHandle 1 dB depth),
       ProfEvent.frameClose (mkHandle 0 dA depth)] ∧
    (on_exit depth idA (on_exit depth idB
        (on_enter ctx depth idB (on_enter ctx depth idA initState)))).stack = [] ∧
    countDiag (on_exit depth idA (on_exit depth idB
        (on_enter ctx depth idB (on_enter ctx depth idA initState)))).events = 0 ∧
    openedFrames (on_exit depth idA (on_exit depth idB
        (on_enter ctx depth idB (on_enter ctx depth idA initState)))).events =
      [mkHandle 0 dA depth, mkHandle 1 dB depth] ∧
    closedFrames (on_exit depth idA (on_exit depth idB
        (on_enter ctx depth idB (on_enter ctx depth idA initState)))).events =
      [mkHandle 1 dB depth, mkHandle 0 dA depth] := by
  have e1 : on_enter ctx depth idA initState =
      { stack := [(mkHandle 0 dA depth, idA)], nextFrameId := 1,
        events := [ProfEvent.frameOpen (mkHandle 0 dA depth)] } := by
    rw [on_enter_some ctx depth idA initState dA hA]
    rfl
  have e2 : on_enter ctx depth idB
      { stack := [(mkHandle 0 dA depth, idA)], nextFrameId := 1,
        events := [ProfEvent.frameOpen (mkHandle 0 dA depth)] } =
      { stack := [(mkHandle 0 dA depth, idA), (mkHandle 1 dB depth, idB)],
        nextFrameId := 2,
        events := [ProfEvent.frameOpen (mkHandle 0 dA depth),
                   ProfEvent.frameOpen (mkHandle 1 dB depth)] } := by
    rw [on_enter_some ctx depth idB _ dB hB]
    rfl
  have e3 : on_exit depth idB
      { stack := [(mkHandle 0 dA depth, idA), (mkHandle 1 dB depth, idB)],
        nextFrameId := 2,
        events := [ProfEvent.frameOpen (mkHandle 0 dA depth),
                   ProfEvent.frameOpen (mkHandle 1 dB depth)] } =
      { stack := [(mkHandle 0 dA depth, idA)], nextFrameId := 2,
        events := [ProfEvent.frameOpen (mkHandle 0 dA depth),
                   ProfEvent.frameOpen (mkHandle 1 dB depth),
                   ProfEvent.frameClose (mkHandle 1 dB depth)] } := by
    rw [on_exit_push depth idB _ [(mkHandle 0 dA depth, idA)]
      (mkHandle 1 dB depth) idB rfl]
    simp
  have e4 : on_exit depth idA
      { stack := [(mkHandle 0 dA depth, idA)], nextFrameId := 2,
        events := [ProfEvent.frameOpen (mkHandle 0 dA depth),
                   ProfEvent.frameOpen (mkHandle 1 dB depth),
                   ProfEvent.frameClose (mkHandle 1 dB depth)] } =
      { stack := [], nextFrameId := 2,
        events := [ProfEvent.frameOpen (mkHandle 0 dA depth),
                   ProfEvent.frameOpen (mkHandle 1 dB depth),
                   ProfEvent.frameClose (mkHandle 1 dB depth),
                   ProfEvent.frameClose (mkHandle 0 dA depth)] } := by
    rw [on_exit_push depth idA _ [] (mkHandle 0 dA depth) idA rfl]
    simp
  rw [e1, e2, e3, e4]
  refine ⟨rfl, rfl, ?_, ?_, ?_⟩
  · simp [countDiag]
  · simp [openedFrames]
  · simp [closedFrames]

/-- C2 witness: the concrete scenario with span ids 1, 2 resolved to the
span names A and B at depth 64. -/
theorem C2_well_nested_witness :
    (on_exit 64 1 (on_exit 64 2
        (on_enter (fun n => if n = 1 then some ⟨"A", none, none, none⟩
            else if n = 2 then some ⟨"B", none, none, none⟩ else none) 64 2
          (on_enter (fun n => if n = 1 then some ⟨"A", none, none, none⟩
            else if n = 2 then some ⟨"B", none, none, none⟩ else none) 64 1
            initState)))).stack = [] ∧
    countDiag (on_exit 64 1 (on_exit 64 2
        (on_enter (fun n => if n = 1 then some ⟨"A", none, none, none⟩
            else if n = 2 then some ⟨"B", none, none, none⟩ else none) 64 2
          (on_enter (fun n => if n = 1 then some ⟨"A", none, none, none⟩
            else if n = 2 then some ⟨"B", none, none, none⟩ else none) 64 1
            initState)))).events = 0 := by
  have h := C2_well_nested
    (fun n => if n = 1 then some ⟨"A", none, none, none⟩
      else if n = 2 then some ⟨"B", none, none, none⟩ else none)
    64 1 2 ⟨"A", none, none, none⟩ ⟨"B", none, none, none⟩ rfl rfl
  exact ⟨h.2.1, h.2.2.1⟩

/-! ## C1: out-of-order exit -/

/-- C1 counterexample: in the concrete run `enter A, enter B, exit A`, one
out-of-order diagnostic is emitted and exactly the frame pushed for B is
closed, but the shadow stack afterward does NOT contain only the entry of
B - it contains only the entry of A, because `on_exit` pops the back of
the stack (the entry of B) regardless of the id being exited. -/
theorem C1_counterexample :
    countColorDiag oooText c1run.events = 1 ∧
    closedFrames c1run.events = [mkHandle 1 ⟨"B", none, none, none⟩ 64] ∧
    ¬ c1run.stack = [(mkHandle 1 ⟨"B", none, none, none⟩ 64, 2)] ∧
    c1run.stack = [(mkHandle 0 ⟨"A", none, none, none⟩ 64, 1)] := by
  decide

/-- C1 amended: for `enter A, enter B, exit A` with distinct ids on one
thread from a fresh state, exactly one out-of-order colored diagnostic is
emitted, exactly one frame - the one pushed for B - is closed (the popped
frame is closed on the mismatch path like on every other path), and the
shadow stack afterward contains only the entry of A. -/
theorem C1_out_of_order_amended (ctx : Nat → Option SpanData)
    (depth idA idB : Nat) (dA dB : SpanData)
    (hA : ctx idA = some dA) (hB : ctx idB = some dB) (hne : idA ≠ idB) :
    (on_exit depth idA (on_enter ctx depth idB
        (on_enter ctx depth idA initState))).events =
      [ProfEvent.frameOpen (mkHandle 0 dA depth),
       ProfEvent.frameOpen (mkHandle 1 dB depth),
       ProfEvent.colorMessage oooText 0xFF000000 depth,
       ProfEvent.frameClose (mkHandle 1 dB depth)] ∧
    countColorDiag oooText (on_exit depth idA (on_enter ctx depth idB
        (on_enter ctx depth idA initState))).events = 1 ∧
    openedFrames (on_exit depth idA (on_enter ctx depth idB
        (on_enter ctx depth idA initState))).events =
      [mkHandle 0 dA depth, mkHandle 1 dB depth] ∧
    closedFrames (on_exit depth idA (on_enter ctx depth idB
        (on_enter ctx depth idA initState))).events = [mkHandle 1 dB depth] ∧
    (on_exit depth idA (on_enter ctx depth idB
        (on_enter ctx depth idA initState))).stack = [(mkHandle 0 dA depth, idA)] := by
  have e1 : on_enter ctx depth idA initState =
      { stack := [(mkHandle 0 dA depth, idA)], nextFrameId := 1,
        events := [ProfEvent.frameOpen (mkHandle 0 dA depth)] } := by
    rw [on_enter_some ctx depth idA initState dA hA]
    rfl
  have e2 : on_enter ctx depth idB
      { stack := [(mkHandle 0 dA depth, idA)], nextFrameId := 1,
        events := [ProfEvent.frameOpen (mkHandle 0 dA depth)] } =
      { stack := [(mkHandle 0 dA depth, idA), (mkHandle 1 dB depth, idB)],
        nextFrameId := 2,
        events := [ProfEvent.frameOpen (mkHandle 0 dA depth),
                   ProfEvent.frameOpen (mkHandle 1 dB depth)] } := by
    rw [on_enter_some ctx depth idB _ dB hB]
    rfl
  have e3 : on_exit depth idA
      { stack := [(mkHandle 0 dA depth, idA), (mkHandle 1 dB depth, idB)],
        nextFrameId := 2,
        events := [ProfEvent.frameOpen (mkHandle 0 dA depth),
                   ProfEvent.frameOpen (mkHandle 1 dB depth)] } =
      { stack := [(mkHandle 0 dA depth, idA)], nextFrameId := 2,
        events := [ProfEvent.frameOpen (mkHandle 0 dA depth),
                   ProfEvent.frameOpen (mkHandle 1 dB depth),
                   ProfEvent.colorMessage oooText 0xFF000000 depth,
                   ProfEvent.frameClose (mkHandle 1 dB depth)] } := by
    rw [on_exit_push depth idA _ [(mkHandle 0 dA depth, idA)]
      (mkHandle 1 dB depth) idB rfl]
    simp [hne]
  rw [e1, e2, e3]
  refine ⟨rfl, ?_, ?_, ?_, rfl⟩
  · simp [countColorDiag, isColorDiag]
  · simp [openedFrames]
  · simp [closedFrames]

/-- C1 amended witness: the concrete run with ids 1 and 2. -/
theorem C1_out_of_order_amended_witness :
    countColorDiag oooText c1run.events = 1 ∧
    closedFrames c1run.events = [mkHandle 1 ⟨"B", none, none, none⟩ 64] ∧
    c1run.stack = [(mkHandle 0 ⟨"A", none, none, none⟩ 64, 1)] := by
  have h := C1_out_of_order_amended c1ctx 64 1 2
    ⟨"A", none, none, none⟩ ⟨"B", none, none, none⟩ rfl rfl (by decide)
  exact ⟨h.2.1, h.2.2.2.1, h.2.2.2.2⟩

/-! ## C5: frame marker -/

lemma countFrameMark_append (a b : List ProfEvent) :
    countFrameMark (a ++ b) = countFrameMark a + countFrameMark b :=
  List.countP_append _ a b

/-- C5: an event whose only field is the reserved boolean frame-marker
field with value true produces no message and exactly one
continuous-frame-end notification; an event with zero fields produces
nothing; and in general exactly one notification is issued when the
frame-mark flag is set and none otherwise, independent of the message
part. -/
theorem C5_frame_marker (depth : Nat) (st : LayerState) :
    (on_event depth [("tracy.frame_mark", FieldValue.bool true)] st).events =
      st.events ++ [ProfEvent.frameMark] ∧
    (on_event depth ([] : List (String × FieldValue)) st).events = st.events ∧
    ∀ fields : List (String × FieldValue),
      countFrameMark (on_event depth fields st).events =
        countFrameMark st.events +
          (if (visit fields).frame_mark then 1 else 0) := by
  refine ⟨?_, ?_, ?_⟩
  · have hv : visit [("tracy.frame_mark", FieldValue.bool true)] =
        { dest := "", frame_mark := true, first := true } := rfl
    simp only [on_event, hv]
    simp
  · have hv : visit ([] : List (String × FieldValue)) =
        { dest := "", frame_mark := false, first := true } := rfl
    simp only [on_event, hv]
    simp
  · intro fields
    simp only [on_event]
    rw [countFrameMark_append, countFrameMark_append]
    have hmsg : countFrameMark
        (if (visit fields).first = false then
          if byteLen (visit fields).dest ≥ MAX_LEN then
            [ProfEvent.plainMessage
              (String.mk (takeBytes (visit fields).dest.data
                (findBoundary (visit fields).dest.data MAX_LEN))) depth,
             ProfEvent.colorMessage truncText 0xFF000000 depth]
          else [ProfEvent.plainMessage (visit fields).dest depth]
        else []) = 0 := by
      split
      · split
        · rfl
        · rfl
      · rfl
    rw [hmsg]
    have hfm : countFrameMark
        (if (visit fields).frame_mark then [ProfEvent.frameMark] else []) =
        (if (visit fields).frame_mark then 1 else 0) := by
      split
      · rfl
      · rfl
    rw [hfm]
    omega

/-! ## Byte-level lemmas for the truncation path -/

lemma byteLenL_cons (c : Char) (l : List Char) :
    byteLenL (c :: l) = c.utf8Size + byteLenL l := by
  simp [byteLenL]

lemma byteLenL_append (a b : List Char) :
    byteLenL (a ++ b) = byteLenL a + byteLenL b := by
  simp [byteLenL]

lemma byteLenL_pos_of_ne_nil (l : List Char) (h : l ≠ []) : 0 < byteLenL l := by
  cases l with
  | nil => exact absurd rfl h
  | cons c rest =>
    rw [byteLenL_cons]
    have := Char.utf8Size_pos c
    omega

lemma isCharBoundary_zero (l : List Char) : isCharBoundary l 0 = true := by
  cases l <;> rfl

lemma findBoundary_le (l : List Char) (n : Nat) : findBoundary l n ≤ n := by
  induction n with
  | zero => exact Nat.le_refl 0
  | succ i ih =>
    unfold findBoundary
    split
    · exact Nat.le_refl _
    · exact Nat.le_succ_of_le ih

lemma isCharBoundary_findBoundary (l : List Char) (n : Nat) :
    isCharBoundary l (findBoundary l n) = true := by
  induction n with
  | zero => exact isCharBoundary_zero l
  | succ i ih =>
    unfold findBoundary
    split
    · assumption
    · exact ih

lemma findBoundary_max (l : List Char) (n j : Nat)
    (hj : isCharBoundary l j = true) (hjn : j ≤ n) : j ≤ findBoundary l n := by
  induction n with
  | zero => simpa [findBoundary] using hjn
  | succ i ih =>
    unfold findBoundary
    split
    · exact hjn
    · rename_i h
      have hne : j ≠ i + 1 := by
        intro he
        rw [he] at hj
        exact h hj
      exact ih (by omega)

lemma boundary_of_front (p r : List Char) :
    isCharBoundary (p ++ r) (byteLenL p) = true := by
  induction p with
  | nil => simpa using isCharBoundary_zero r
  | cons c p ih =>
    have hpos := Char.utf8Size_pos c
    obtain ⟨k, hk⟩ : ∃ k, byteLenL (c :: p) = k + 1 :=
      ⟨byteLenL (c :: p) - 1, by rw [byteLenL_cons]; omega⟩
    rw [List.cons_append, hk]
    have hk2 : k + 1 = c.utf8Size + byteLenL p := by rw [← byteLenL_cons, hk]
    simp only [isCharBoundary]
    rw [if_neg (by omega)]
    have h3 : k + 1 - c.utf8Size = byteLenL p := by omega
    rw [h3]
    exact ih

lemma front_of_boundary (l : List Char) (i : Nat)
    (h : isCharBoundary l i = true) : ∃ p r, p ++ r = l ∧ byteLenL p = i := by
  induction l generalizing i with
  | nil =>
    cases i with
    | zero => exact ⟨[], [], rfl, rfl⟩
    | succ k => simp [isCharBoundary] at h
  | cons c rest ih =>
    cases i with
    | zero => exact ⟨[], c :: rest, rfl, rfl⟩
    | succ k =>
      simp only [isCharBoundary] at h
      by_cases hlt : k + 1 < c.utf8Size
      · rw [if_pos hlt] at h
        exact absurd h (by simp)
      · rw [if_neg hlt] at h
        obtain ⟨p, r, hpr, hlen⟩ := ih (k + 1 - c.utf8Size) h
        refine ⟨c :: p, r, by rw [List.cons_append, hpr], ?_⟩
        rw [byteLenL_cons, hlen]
        omega

lemma takeBytes_front (p r : List Char) : takeBytes (p ++ r) (byteLenL p) = p := by
  induction p with
  | nil =>
    show takeBytes r 0 = []
    cases r <;> rfl
  | cons c p ih =>
    have hpos := Char.utf8Size_pos c
    obtain ⟨k, hk⟩ : ∃ k, byteLenL (c :: p) = k + 1 :=
      ⟨byteLenL (c :: p) - 1, by rw [byteLenL_cons]; omega⟩
    have hk2 : k + 1 = c.utf8Size + byteLenL p := by rw [← byteLenL_cons, hk]
    rw [List.cons_append, hk]
    simp only [takeBytes]
    rw [if_pos (by omega)]
    have h3 : k + 1 - c.utf8Size = byteLenL p := by omega
    rw [h3, ih]

lemma byteLenL_takeBytes_le (l : List Char) (n : Nat) :
    byteLenL (takeBytes l n) ≤ n := by
  induction l generalizing n with
  | nil =>
    cases n with
    | zero => exact Nat.le_refl 0
    | succ k => show byteLenL [] ≤ k + 1; simp [byteLenL]
  | cons c rest ih =>
    cases n with
    | zero => exact Nat.le_refl 0
    | succ k =>
      simp only [takeBytes]
      split
      · rename_i hle
        rw [byteLenL_cons]
        have := ih (k + 1 - c.utf8Size)
        omega
      · simp [byteLenL]

lemma front_total (p : List Char) : ∀ (l t : List Char),
    (∃ r, p ++ r = l) → (∃ r, t ++ r = l) →
    (∃ r, p ++ r = t) ∨ (∃ r, t ++ r = p) := by
  induction p with
  | nil =>
    intro l t _ _
    exact Or.inl ⟨t, rfl⟩
  | cons c p ih =>
    intro l t hp ht
    obtain ⟨rp, hrp⟩ := hp
    cases t with
    | nil => exact Or.inr ⟨c :: p, rfl⟩
    | cons c2 t =>
      obtain ⟨rt, hrt⟩ := ht
      rw [← hrp, List.cons_append] at hrt
      rw [List.cons_append] at hrt
      injection hrt with hc htail
      rcases ih (p ++ rp) t ⟨rp, rfl⟩ ⟨rt, htail⟩ with h | h
      · obtain ⟨r, hr⟩ := h
        exact Or.inl ⟨r, by rw [List.cons_append, hr, hc]⟩
      · obtain ⟨r, hr⟩ := h
        exact Or.inr ⟨r, by rw [List.cons_append, hr, hc]⟩

lemma front_of_front_of_byteLen (l p t : List Char)
    (hp : ∃ r, p ++ r = l) (ht : ∃ r, t ++ r = l)
    (hlen : byteLenL p ≤ byteLenL t) : ∃ r, p ++ r = t := by
  rcases front_total p l t hp ht with h | h
  · exact h
  · obtain ⟨r, hr⟩ := h
    have hsum : byteLenL t + byteLenL r = byteLenL p := by
      rw [← byteLenL_append, hr]
    have hrnil : r = [] := by
      by_contra hne
      have := byteLenL_pos_of_ne_nil r hne
      omega
    refine ⟨[], ?_⟩
    rw [List.append_nil, ← hr, hrnil, List.append_nil]

/-- C10: the boundary-search loop of the truncation path terminates at a
valid boundary that never exceeds the starting index (no underflow), and
index 0 is a character boundary of every string, so the search always
succeeds. -/
theorem C10_boundary_search (l : List Char) (n : Nat) :
    findBoundary l n ≤ n ∧
    isCharBoundary l (findBoundary l n) = true ∧
    isCharBoundary l 0 = true :=
  ⟨findBoundary_le l n, isCharBoundary_findBoundary l n, isCharBoundary_zero l⟩

/-! ## C4: truncation of oversized messages -/

lemma on_event_truncates (depth : Nat) (fields : List (String × FieldValue))
    (st : LayerState) (h1 : (visit fields).first = false)
    (h2 : byteLen (visit fields).dest ≥ MAX_LEN) :
    (on_event depth fields st).events =
      st.events ++
        ([ProfEvent.plainMessage (String.mk (takeBytes (visit fields).dest.data
            (findBoundary (visit fields).dest.data MAX_LEN))) depth,
          ProfEvent.colorMessage truncText 0xFF000000 depth] ++
         (if (visit fields).frame_mark then [ProfEvent.frameMark] else [])) := by
  simp only [on_event]
  rw [if_pos h1, if_pos h2, List.append_assoc]

lemma byteLenL_replicate (n : Nat) (c : Char) :
    byteLenL (List.replicate n c) = n * c.utf8Size := by
  induction n with
  | zero => simp [byteLenL]
  | succ k ih =>
    rw [List.replicate_succ, byteLenL_cons, ih]
    ring

/-- C4: when an event's rendered text reaches `MAX_LEN` bytes, the
message sent is the largest character-level prefix of the rendered text
whose byte length stays at or below `MAX_LEN` (and whose cut point is a
valid character boundary), a colored truncation diagnostic follows it,
and the truncated text is still sent, never dropped. -/
theorem C4_truncation (fields : List (String × FieldValue)) (st : LayerState)
    (depth : Nat) (h1 : (visit fields).first = false)
    (h2 : MAX_LEN ≤ byteLen (visit fields).dest) :
    ∃ t : String,
      (on_event depth fields st).events =
        st.events ++ ([ProfEvent.plainMessage t depth,
          ProfEvent.colorMessage truncText 0xFF000000 depth] ++
          (if (visit fields).frame_mark then [ProfEvent.frameMark] else [])) ∧
      byteLen t ≤ MAX_LEN ∧
      isCharBoundary (visit fields).dest.data (byteLen t) = true ∧
      (∃ r, t.data ++ r = (visit fields).dest.data) ∧
      (∀ p r, p ++ r = (visit fields).dest.data → byteLenL p ≤ MAX_LEN →
        ∃ r2, p ++ r2 = t.data) := by
  have hbnd : isCharBoundary (visit fields).dest.data
      (findBoundary (visit fields).dest.data MAX_LEN) = true :=
    isCharBoundary_findBoundary _ MAX_LEN
  have hcle : findBoundary (visit fields).dest.data MAX_LEN ≤ MAX_LEN :=
    findBoundary_le _ MAX_LEN
  obtain ⟨p, r, hpr, hplen⟩ := front_of_boundary _ _ hbnd
  have htake : takeBytes (visit fields).dest.data
      (findBoundary (visit fields).dest.data MAX_LEN) = p := by
    rw [← hplen, ← hpr, takeBytes_front]
  refine ⟨String.mk (takeBytes (visit fields).dest.data
    (findBoundary (visit fields).dest.data MAX_LEN)),
    on_event_truncates depth fields st h1 h2, ?_, ?_, ?_, ?_⟩
  · show byteLenL (takeBytes (visit fields).dest.data
      (findBoundary (visit fields).dest.data MAX_LEN)) ≤ MAX_LEN
    rw [htake, hplen]
    exact hcle
  · show isCharBoundary (visit fields).dest.data
      (byteLenL (takeBytes (visit fields).dest.data
        (findBoundary (visit fields).dest.data MAX_LEN))) = true
    rw [htake, hplen]
    exact hbnd
  · refine ⟨r, ?_⟩
    show takeBytes (visit fields).dest.data
      (findBoundary (visit fields).dest.data MAX_LEN) ++ r = (visit fields).dest.data
    rw [htake, hpr]
  · intro p2 r2 hp2 hlen2
    have hb2 : isCharBoundary (visit fields).dest.data (byteLenL p2) = true := by
      rw [← hp2]
      exact boundary_of_front p2 r2
    have hle2 : byteLenL p2 ≤ findBoundary (visit fields).dest.data MAX_LEN :=
      findBoundary_max _ MAX_LEN (byteLenL p2) hb2 hlen2
    apply front_of_front_of_byteLen (visit fields).dest.data p2 _ ⟨r2, hp2⟩
    · refine ⟨r, ?_⟩
      show takeBytes (visit fields).dest.data
        (findBoundary (visit fields).dest.data MAX_LEN) ++ r = (visit fields).dest.data
      rw [htake, hpr]
    · show byteLenL p2 ≤ byteLenL (takeBytes (visit fields).dest.data
        (findBoundary (visit fields).dest.data MAX_LEN))
      rw [htake, hplen]
      exact hle2

/-- C4 witness: a one-field event whose rendered text is 65538 bytes. -/
theorem C4_truncation_witness :
    (visit c4fields).first = false ∧
    MAX_LEN ≤ byteLen (visit c4fields).dest ∧
    ∃ t : String,
      (on_event 64 c4fields initState).events =
        [ProfEvent.plainMessage t 64,
         ProfEvent.colorMessage truncText 0xFF000000 64] ∧
      byteLen t ≤ MAX_LEN ∧
      (∃ r, t.data ++ r = (visit c4fields).dest.data) := by
  have hfirst : (visit c4fields).first = false := rfl
  have hdest : (visit c4fields).dest =
      "x = " ++ String.mk (List.replicate 65534 'a') := by
    show ("" : String) ++ ("x" ++ " = " ++ String.mk (List.replicate 65534 'a')) = _
    rw [String.empty_append]
    rw [show ("x" ++ " = " : String) = "x = " from rfl]
  have hone : ('a').utf8Size = 1 := rfl
  have hlen : MAX_LEN ≤ byteLen (visit c4fields).dest := by
    rw [hdest]
    unfold byteLen
    rw [String.data_append, byteLenL_append]
    rw [show (String.mk (List.replicate 65534 'a')).data =
      List.replicate 65534 'a' from rfl]
    rw [byteLenL_replicate, hone]
    rw [show byteLenL ("x = ".data) = 4 from by decide]
    decide
  obtain ⟨t, he, hb, _, hf, _⟩ := C4_truncation c4fields initState 64 hfirst hlen
  refine ⟨hfirst, hlen, t, ?_, hb, hf⟩
  rw [he]
  rw [show (visit c4fields).frame_mark = false from rfl]
  simp [initState]

/-! ## Rendering refinement: `visit` realises the spec-side join -/

lemma record_bool_eq (vis : Visitor) (name : String) (b : Bool) :
    record_bool vis name b =
      if b = true ∧ name = "tracy.frame_mark" then { vis with frame_mark := true }
      else record_debug vis name (if b then "true" else "false") := by
  unfold record_bool
  split
  · rw [if_pos ⟨rfl, rfl⟩]
  · rename_i h
    rw [if_neg (show ¬(b = true ∧ name = "tracy.frame_mark") from
      fun hand => h hand.1 hand.2)]

lemma record_debug_eq (vis : Visitor) (name value : String) :
    record_debug vis name value =
      if vis.first then
        { vis with dest := vis.dest ++ (name ++ " = " ++ value), first := false }
      else { vis with dest := vis.dest ++ (", " ++ (name ++ " = " ++ value)) } := by
  unfold record_debug
  by_cases hv : vis.first = true
  · rw [if_pos hv, if_pos hv]
  · rw [if_neg hv, if_neg hv]
    simp [String.append_assoc]

lemma recordField_none (vis : Visitor) (f : String × FieldValue)
    (hF : specRenderedField f = none) :
    recordField vis f = { vis with frame_mark := true } := by
  cases f with
  | mk name v =>
    cases v with
    | bool b =>
      have hFdef : specRenderedField (name, FieldValue.bool b) =
          if b = true ∧ name = "tracy.frame_mark" then none
          else some (name ++ " = " ++ (if b then "true" else "false")) := rfl
      by_cases hc : b = true ∧ name = "tracy.frame_mark"
      · show record_bool vis name b = _
        rw [record_bool_eq, if_pos hc]
      · rw [hFdef, if_neg hc] at hF
        exact absurd hF (by simp)
    | debug s =>
      have : specRenderedField (name, FieldValue.debug s) =
          some (name ++ " = " ++ s) := rfl
      rw [this] at hF
      exact absurd hF (by simp)

lemma recordField_some (vis : Visitor) (f : String × FieldValue) (s : String)
    (hF : specRenderedField f = some s) :
    recordField vis f =
      if vis.first then { vis with dest := vis.dest ++ s, first := false }
      else { vis with dest := vis.dest ++ (", " ++ s) } := by
  cases f with
  | mk name v =>
    cases v with
    | bool b =>
      have hFdef : specRenderedField (name, FieldValue.bool b) =
          if b = true ∧ name = "tracy.frame_mark" then none
          else some (name ++ " = " ++ (if b then "true" else "false")) := rfl
      by_cases hc : b = true ∧ name = "tracy.frame_mark"
      · rw [hFdef, if_pos hc] at hF
        exact absurd hF (by simp)
      · rw [hFdef, if_neg hc] at hF
        injection hF with hs
        show record_bool vis name b = _
        rw [record_bool_eq, if_neg hc, record_debug_eq, hs]
    | debug s2 =>
      have hFdef : specRenderedField (name, FieldValue.debug s2) =
          some (name ++ " = " ++ s2) := rfl
      rw [hFdef] at hF
      injection hF with hs
      show record_debug vis name s2 = _
      rw [record_debug_eq, hs]

lemma visit_loop_false (fields : List (String × FieldValue)) :
    ∀ vis : Visitor, vis.first = false →
    (List.foldl recordField vis fields).dest =
      vis.dest ++ specJoinTail (fields.filterMap specRenderedField) ∧
    (List.foldl recordField vis fields).first = false := by
  induction fields with
  | nil =>
    intro vis h
    exact ⟨(String.append_empty _).symm, h⟩
  | cons f rest ih =>
    intro vis h
    rw [List.foldl_cons]
    cases hF : specRenderedField f with
    | none =>
      rw [recordField_none vis f hF]
      rw [List.filterMap_cons, hF]
      exact ih { vis with frame_mark := true } h
    | some s =>
      rw [recordField_some vis f s hF]
      rw [if_neg (by rw [h]; exact Bool.false_ne_true)]
      rw [List.filterMap_cons, hF]
      obtain ⟨ha, hb⟩ := ih { vis with dest := vis.dest ++ (", " ++ s) } h
      refine ⟨?_, hb⟩
      rw [ha]
      show vis.dest ++ (", " ++ s) ++ specJoinTail (rest.filterMap specRenderedField) =
        vis.dest ++ (", " ++ s ++ specJoinTail (rest.filterMap specRenderedField))
      rw [String.append_assoc, String.append_assoc]

lemma visit_loop_true (fields : List (String × FieldValue)) :
    ∀ vis : Visitor, vis.first = true →
    (fields.filterMap specRenderedField = [] →
      (List.foldl recordField vis fields).dest = vis.dest ∧
      (List.foldl recordField vis fields).first = true) ∧
    (∀ s rest2, fields.filterMap specRenderedField = s :: rest2 →
      (List.foldl recordField vis fields).dest =
        vis.dest ++ (s ++ specJoinTail rest2) ∧
      (List.foldl recordField vis fields).first = false) := by
  induction fields with
  | nil =>
    intro vis h
    refine ⟨fun _ => ⟨rfl, h⟩, fun s rest2 hcon => ?_⟩
    simp at hcon
  | cons f rest ih =>
    intro vis h
    rw [List.foldl_cons]
    cases hF : specRenderedField f with
    | none =>
      rw [recordField_none vis f hF]
      rw [List.filterMap_cons, hF]
      exact ih { vis with frame_mark := true } h
    | some s =>
      rw [recordField_some vis f s hF]
      rw [if_pos (by rw [h])]
      rw [List.filterMap_cons, hF]
      refine ⟨fun hcon => by simp at hcon, fun s2 rest2 heq => ?_⟩
      injection heq with hs hrest
      obtain ⟨ha, hb⟩ :=
        visit_loop_false rest { vis with dest := vis.dest ++ s, first := false } rfl
      refine ⟨?_, hb⟩
      rw [ha]
      show vis.dest ++ s ++ specJoinTail (rest.filterMap specRenderedField) = _
      rw [hrest, hs, String.append_assoc]

/-- The source-derived visitor text equals the spec-side join, and a field
was rendered exactly when the rendered-field list is nonempty. -/
lemma visit_dest_eq (fields : List (String × FieldValue)) :
    (visit fields).dest = specRenderJoin fields ∧
    ((visit fields).first = false ↔ fields.filterMap specRenderedField ≠ []) := by
  unfold visit specRenderJoin
  cases hF : fields.filterMap specRenderedField with
  | nil =>
    obtain ⟨ha, hb⟩ := (visit_loop_true fields
      { dest := "", frame_mark := false, first := true } rfl).1 hF
    refine ⟨ha, ?_⟩
    rw [hb]
    simp
  | cons s rest2 =>
    obtain ⟨ha, hb⟩ := (visit_loop_true fields
      { dest := "", frame_mark := false, first := true } rfl).2 s rest2 hF
    refine ⟨?_, ?_⟩
    · rw [ha]
      exact String.empty_append _
    · rw [hb]
      simp

/-! ## C6: rendered message for ordinary events -/

lemma on_event_normal (depth : Nat) (fields : List (String × FieldValue))
    (st : LayerState) (h1 : (visit fields).first = false)
    (h2 : byteLen (visit fields).dest < MAX_LEN) :
    (on_event depth fields st).events =
      st.events ++ ([ProfEvent.plainMessage (visit fields).dest depth] ++
        (if (visit fields).frame_mark then [ProfEvent.frameMark] else [])) := by
  simp only [on_event]
  rw [if_pos h1, if_neg (by omega), List.append_assoc]

lemma byteLen_mk (l : List Char) : byteLen (String.mk l) = byteLenL l := rfl

/-- C6 counterexample: a one-field event (no frame-marker field) whose
rendered text is 65604 bytes; the plain message actually sent is the
truncated text, not the rendered event text, so the claim that the sent
message's text always equals the full rendering fails at this input. -/
theorem C6_counterexample :
    (visit c6fields).first = false ∧
    ¬ plainMsgs (on_event 64 c6fields initState).events = [(visit c6fields).dest] := by
  have hfirst : (visit c6fields).first = false := rfl
  have hdest : (visit c6fields).dest =
      "x = " ++ String.mk (List.replicate 65600 'b') := by
    show ("" : String) ++ ("x" ++ " = " ++ String.mk (List.replicate 65600 'b')) = _
    rw [String.empty_append]
    rw [show ("x" ++ " = " : String) = "x = " from rfl]
  have hlen : byteLen (visit c6fields).dest = 65604 := by
    rw [hdest]
    unfold byteLen
    rw [String.data_append]
    rw [show (String.mk (List.replicate 65600 'b')).data =
      List.replicate 65600 'b' from rfl]
    rw [byteLenL_append, byteLenL_replicate]
    rw [show ('b').utf8Size = 1 from rfl]
    rw [show byteLenL ("x = ".data) = 4 from by decide]
  have h2 : byteLen (visit c6fields).dest ≥ MAX_LEN := by
    rw [hlen]
    decide
  have he := on_event_truncates 64 c6fields initState hfirst h2
  refine ⟨hfirst, ?_⟩
  rw [he, show (visit c6fields).frame_mark = false from rfl]
  intro hcon
  simp only [initState, List.nil_append, if_neg Bool.false_ne_true,
    List.append_nil] at hcon
  have hone : String.mk (takeBytes (visit c6fields).dest.data
      (findBoundary (visit c6fields).dest.data MAX_LEN)) = (visit c6fields).dest := by
    have : plainMsgs [ProfEvent.plainMessage (String.mk (takeBytes
        (visit c6fields).dest.data (findBoundary (visit c6fields).dest.data
          MAX_LEN))) 64, ProfEvent.colorMessage truncText 0xFF000000 64] =
        [String.mk (takeBytes (visit c6fields).dest.data
          (findBoundary (visit c6fields).dest.data MAX_LEN))] := rfl
    rw [this] at hcon
    exact List.head_eq_of_cons_eq hcon
  have hble := byteLenL_takeBytes_le (visit c6fields).dest.data
    (findBoundary (visit c6fields).dest.data MAX_LEN)
  have hfle : findBoundary (visit c6fields).dest.data MAX_LEN ≤ MAX_LEN :=
    findBoundary_le _ _
  have hcg := congrArg byteLen hone
  rw [byteLen_mk] at hcg
  rw [show MAX_LEN = 65534 from rfl] at hble hfle hcg
  omega

/-- C6 amended: for any event with at least one rendered (non-frame-marker)
field whose rendered text stays below the wire maximum, exactly one plain
message is sent, its text is the fields rendered in iteration order as
`name = value` joined with a comma-space before every rendered field after
the first (the spec-side join), no colored diagnostic is added, and no
frame-boundary notification is issued unless the frame-marker field was
present. -/
theorem C6_rendered_message (fields : List (String × FieldValue))
    (st : LayerState) (depth : Nat) (h1 : (visit fields).first = false)
    (h2 : byteLen (visit fields).dest < MAX_LEN) :
    (visit fields).dest = specRenderJoin fields ∧
    (on_event depth fields st).events =
      st.events ++ ([ProfEvent.plainMessage (specRenderJoin fields) depth] ++
        (if (visit fields).frame_mark then [ProfEvent.frameMark] else [])) ∧
    plainMsgs (on_event depth fields st).events =
      plainMsgs st.events ++ [specRenderJoin fields] ∧
    countDiag (on_event depth fields st).events = countDiag st.events ∧
    ((visit fields).frame_mark = false →
      countFrameMark (on_event depth fields st).events =
        countFrameMark st.events) := by
  have hd := (visit_dest_eq fields).1
  have he := on_event_normal depth fields st h1 h2
  rw [hd] at he
  refine ⟨hd, he, ?_, ?_, ?_⟩
  · rw [he]
    cases hfm : (visit fields).frame_mark <;> simp [hfm, plainMsgs]
  · rw [he]
    cases hfm : (visit fields).frame_mark <;> simp [hfm, countDiag]
  · intro hnfm
    rw [he, hnfm]
    simp [countFrameMark]

/-- C6 amended witness: the two-field event x = 1, y = "s". -/
theorem C6_rendered_message_witness :
    (visit c6exFields).first = false ∧
    byteLen (visit c6exFields).dest < MAX_LEN ∧
    specRenderJoin c6exFields = "x = 1, y = \"s\"" ∧
    (on_event 64 c6exFields initState).events =
      [ProfEvent.plainMessage "x = 1, y = \"s\"" 64] ∧
    countFrameMark (on_event 64 c6exFields initState).events = 0 ∧
    countDiag (on_event 64 c6exFields initState).events = 0 := by
  have h1 : (visit c6exFields).first = false := rfl
  have h2 : byteLen (visit c6exFields).dest < MAX_LEN := by decide
  have hj : specRenderJoin c6exFields = "x = 1, y = \"s\"" := by decide
  obtain ⟨hd, he, hp, hcd, hcf⟩ := C6_rendered_message c6exFields initState 64 h1 h2
  refine ⟨h1, h2, hj, ?_, ?_, ?_⟩
  · rw [he, hj, show (visit c6exFields).frame_mark = false from rfl]
    simp [initState]
  · rw [hcf (show (visit c6exFields).frame_mark = false from rfl)]
    rfl
  · rw [hcd]
    rfl

end Tracy
